import Mathlib

/-!
Verification of the mailbox-ordered webhook delivery engine
(`src/sentry/hybridcloud/tasks/deliver_webhooks.py`).

The embedding models the module's pure decision logic directly from the
source.  External boundaries (the HTTP clients, JSON parsing, option
lookups) are oracles supplied as function parameters; the database table of
`WebhookPayload` rows is a `List WebhookPayload`; exceptions are values of
an `Except` type; wall-clock time is an explicit `Int` parameter, and the
per-iteration deadline test of the drain loops is an explicit boolean
stream.  Members of the absent `webhookpayload` model module
(`MAX_ATTEMPTS`, `DestinationType`, `WebhookPayload.schedule_next_attempt`)
are modelled from the spec and marked as such in their doc comments.
-/

namespace DeliverWebhooks

/-- Constant from the source: the maximum number of records updated when
scheduling a mailbox. -/
def MAX_MAILBOX_DRAIN : Nat := 300

/-- Constant from the source: the number of mailboxes that will have
messages scheduled each cycle. -/
def BATCH_SIZE : Nat := 1000

/-- Constant from the source: `MAX_DELIVERY_AGE = timedelta(days=3)`.
Timestamps in the model are integers measured in days. -/
def MAX_DELIVERY_AGE : Int := 3

/-- Constant from the source: the provider to priority table; a lower
number means a higher priority. -/
def PROVIDER_PRIORITY : List (String × Nat) := [("stripe", 1)]

/-- Constant from the source: default priority for providers not listed in
`PROVIDER_PRIORITY`. -/
def DEFAULT_PROVIDER_PRIORITY : Nat := 10

/-- Modelled from the spec: the `DestinationType` enum of the absent
`webhookpayload` model module, `{REGION, THIRD_PARTY}` in the spec's data
model; member names follow the source's uses `DestinationType.SENTRY_REGION`
and `DestinationType.CODECOV`. -/
inductive DestinationType
  | sentry_region
  | codecov
deriving DecidableEq

/-- One row of the webhook payload table, with the fields of the spec's
data model that the delivery module reads. -/
structure WebhookPayload where
  id : Nat
  mailbox_name : String
  provider : Option String := none
  destination_type : DestinationType := .sentry_region
  attempts : Nat := 0
  schedule_for : Int := 0
  date_added : Int := 0
  request_path : String := ""
  request_body : String := ""
  request_headers : String := ""
deriving DecidableEq

/-- A Python exception escaping one delivery attempt: either the module's
own `DeliveryFailed` signal, or any other exception (identified by a
code). -/
inductive Exc
  | deliveryFailed
  | otherExc (code : Nat)
deriving DecidableEq

/-- Modelled from the spec: `WebhookPayload.schedule_next_attempt` of the
absent `webhookpayload` model module.  Per the spec the drainer
"increments `attempts` and recomputes `schedule_for` via exponential-ish
backoff"; the backoff delay is an abstract function of the prior attempts
count. -/
def schedule_next_attempt (now : Int) (backoff : Nat → Int) (p : WebhookPayload) :
    WebhookPayload :=
  { p with attempts := p.attempts + 1, schedule_for := now + backoff p.attempts }

/-- The outcome of the `try` block of `perform_region_request`: either the
region client call succeeded, or one of the classified API exceptions was
raised, or some other exception (for example a header decode error)
escaped.  For `ApiHostError` the model records whether the cause is a
`RestrictedIPAddress`; for `ApiError` it records the HTTP status code when
the cause is an `HTTPError` carrying a response, and `none` otherwise. -/
inductive RegionResponse
  | success
  | apiHostError (restrictedIPCause : Bool)
  | apiConflictError
  | apiTimeoutError
  | apiConnectionResetError
  | apiError (httpStatus : Option Int)
  | otherRaised (code : Nat)
deriving DecidableEq

/-- Embedding of `perform_region_request`: classify one region delivery
outcome, raising `DeliveryFailed` (as an `Except.error`) exactly where the
source does. -/
def perform_region_request (o : RegionResponse) : Except Exc Unit :=
  match o with
  | .success => .ok ()
  | .apiHostError restrictedIPCause =>
      if restrictedIPCause then
        .error .deliveryFailed
      else
        .error .deliveryFailed
  | .apiConflictError => .ok ()
  | .apiTimeoutError => .error .deliveryFailed
  | .apiConnectionResetError => .error .deliveryFailed
  | .apiError httpStatus =>
      match httpStatus with
      | some response_code =>
          if 500 ≤ response_code ∧ response_code < 600 then
            .error .deliveryFailed
          else if response_code = 400 ∨ response_code = 401 ∨
              response_code = 403 ∨ response_code = 404 then
            .ok ()
          else
            .error .deliveryFailed
      | none => .error .deliveryFailed
  | .otherRaised code => .error (.otherExc code)

/-- Embedding of Python's `s.strip("/")`: remove every leading and trailing
occurrence of the character from the string. -/
def pyStrip (c : Char) (s : String) : String :=
  let l := s.toList.dropWhile (fun x => x = c)
  String.mk ((l.reverse.dropWhile (fun x => x = c)).reverse)

/-- External boundary of the Codecov forwarding path: option lookup, JSON
parsing, the `CodecovApiClient` constructor, proxy-header cleaning and the
outbound POST, all supplied as oracles. `ownerLogin` models extracting
`repository.owner.login` from the parsed request body, `none` when the body
does not parse as JSON or lacks that shape; `postResult` returns the
response status code, or `Except.error` for a raised
`requests.exceptions.RequestException`. -/
structure CodecovEnv where
  skip_github_owners : List String
  ownerLogin : String → Option String
  configOk : Bool
  decodeHeaders : String → Option (List (String × String))
  cleanProxyHeaders : List (String × String) → List (String × String)
  postResult : String → List (String × String) → Except Nat Nat

/-- Embedding of `_should_skip_codecov_forward_for_github_owner`. -/
def _should_skip_codecov_forward_for_github_owner (env : CodecovEnv)
    (payload : WebhookPayload) : Bool :=
  let skip_set :=
    if env.skip_github_owners = [] then []
    else env.skip_github_owners.filter (fun x => x ≠ "")
  if skip_set = [] then false
  else
    match env.ownerLogin payload.request_body with
    | some login => skip_set.contains login
    | none => false

/-- Which of the mutually exclusive exits of `perform_codecov_request` was
taken.  The first four happen before any outbound request is made; every
one of them is a plain `return`, never a raise. -/
inductive CodecovResult
  | unexpected_path
  | filtered_owner
  | configuration_error
  | json_decode_error
  | failure_status (code : Nat)
  | request_exception (code : Nat)
  | delivered
deriving DecidableEq

/-- True when the exit of `perform_codecov_request` happened after the
outbound POST to Codecov was issued. -/
def CodecovResult.madeOutboundRequest : CodecovResult → Bool
  | .unexpected_path => false
  | .filtered_owner => false
  | .configuration_error => false
  | .json_decode_error => false
  | .failure_status _ => true
  | .request_exception _ => true
  | .delivered => true

/-- Embedding of `perform_codecov_request`.  The Python function body
contains no `raise` and every `except` clause returns, so the embedding is
a total function into `CodecovResult`. -/
def perform_codecov_request (env : CodecovEnv) (payload : WebhookPayload) :
    CodecovResult :=
  if pyStrip '/' payload.request_path ≠ "extensions/github/webhook" then
    .unexpected_path
  else if _should_skip_codecov_forward_for_github_owner env payload then
    .filtered_owner
  else if ¬env.configOk then
    .configuration_error
  else
    match env.decodeHeaders payload.request_headers with
    | none => .json_decode_error
    | some headers =>
        match env.postResult payload.request_body (env.cleanProxyHeaders headers) with
        | .error code => .request_exception code
        | .ok status_code =>
            if status_code ≠ 200 then .failure_status status_code else .delivered

/-- The oracles one delivery attempt consults, per destination strategy. -/
structure DeliveryEnv where
  codecov : CodecovEnv
  regionResponse : WebhookPayload → RegionResponse

/-- Embedding of `perform_request`: dispatch on the payload's destination
type.  The region branch can raise (`Except.error`); the Codecov branch
always returns normally. -/
def perform_request (env : DeliveryEnv) (payload : WebhookPayload) :
    Except Exc Unit :=
  match payload.destination_type with
  | .sentry_region => perform_region_request (env.regionResponse payload)
  | .codecov =>
      let _ := perform_codecov_request env.codecov payload
      .ok ()

/-- How one `deliver_message` call ended. -/
inductive SeqResult
  | discarded
  | delivered
  | raised (e : Exc)
deriving DecidableEq

/-- Embedding of `deliver_message`.  The second component is the row this
payload leaves in the store: `none` when the row was deleted, `some p'`
when the row remains (rescheduled by `schedule_next_attempt`, which the
source saves before performing the request). -/
def deliver_message (maxAttempts : Nat) (now : Int) (backoff : Nat → Int)
    (env : DeliveryEnv) (payload : WebhookPayload) :
    SeqResult × Option WebhookPayload :=
  if maxAttempts ≤ payload.attempts then
    (.discarded, none)
  else
    let payload' := schedule_next_attempt now backoff payload
    match perform_request env payload' with
    | .ok _ => (.delivered, none)
    | .error err => (.raised err, some payload')

/-- Embedding of `deliver_message_parallel`: perform the request and return
any raised exception as a value paired with the payload. -/
def deliver_message_parallel (env : DeliveryEnv) (payload : WebhookPayload) :
    WebhookPayload × Option Exc :=
  match perform_request env payload with
  | .ok _ => (payload, none)
  | .error err => (payload, some err)

/-- Metric outcome tags of the `hybridcloud.deliver_webhooks.delivery`
counter that the modelled decisions emit. -/
inductive MetricOutcome
  | ok
  | retry
  | attempts_exceed
  | delivery_deadline
  | race
  | max_age
deriving DecidableEq

/-- What `_handle_parallel_delivery_result` decided for one result of the
parallel delivery threadpool: the row left in the store (`none` when
deleted), the delivery metric outcome emitted, and the
`(request_failed, should_reraise)` pair the source returns. -/
structure ParallelHandled where
  row : Option WebhookPayload
  outcome : MetricOutcome
  request_failed : Bool
  should_reraise : Bool
deriving DecidableEq

/-- Embedding of `_handle_parallel_delivery_result`. -/
def _handle_parallel_delivery_result (maxAttempts : Nat) (now : Int)
    (backoff : Nat → Int) (payload_record : WebhookPayload) (err : Option Exc) :
    ParallelHandled :=
  match err with
  | some e =>
      if maxAttempts ≤ payload_record.attempts then
        { row := none
          outcome := .attempts_exceed
          request_failed := false
          should_reraise := decide (e ≠ .deliveryFailed) }
      else
        { row := some (schedule_next_attempt now backoff payload_record)
          outcome := .retry
          request_failed := true
          should_reraise := decide (e ≠ .deliveryFailed) }
  | none =>
      { row := none
        outcome := .ok
        request_failed := false
        should_reraise := false }

/-! The sequential drainer (`drain_mailbox`).  The payload table is a
`List WebhookPayload`; wall-clock deadline expiry is an explicit boolean
per outer loop iteration; the loop carries fuel, set at entry to one more
than the store size, which bounds the iteration count because every
iteration that continues has deleted at least one row. -/

/-- The table invariant used by the drain theorems: rows listed in strictly
increasing primary-key order (ids are unique and `id` order is insertion
order). -/
def IdSorted (store : List WebhookPayload) : Prop :=
  store.Pairwise (fun a b => a.id < b.id)

/-- The `order_by("id")` relation. -/
def byIdLE (a b : WebhookPayload) : Prop := a.id ≤ b.id

instance : DecidableRel byIdLE := fun a b => inferInstanceAs (Decidable (a.id ≤ b.id))

/-- Embedding of the drain query: rows of the mailbox at or past the head
id, ordered by id. -/
def mailbox_query (store : List WebhookPayload) (head : WebhookPayload) :
    List WebhookPayload :=
  (store.filter (fun r => decide (head.id ≤ r.id ∧ r.mailbox_name = head.mailbox_name))).insertionSort
    byIdLE

/-- Delete one row by primary key. -/
def store_delete (store : List WebhookPayload) (pid : Nat) : List WebhookPayload :=
  store.filter (fun r => decide (r.id ≠ pid))

/-- Save one row (replace the row with the same primary key). -/
def store_save (store : List WebhookPayload) (p : WebhookPayload) :
    List WebhookPayload :=
  store.map (fun r => if r.id = p.id then p else r)

/-- Apply the row effect a `deliver_message` call reported for a record:
deleted (`none`) or replaced by the rescheduled row. -/
def store_apply_row (store : List WebhookPayload) (pid : Nat) :
    Option WebhookPayload → List WebhookPayload
  | none => store_delete store pid
  | some p => store_save store p

/-- Delete several rows by primary key. -/
def store_delete_ids (store : List WebhookPayload) (ids : List Nat) :
    List WebhookPayload :=
  store.filter (fun r => decide (r.id ∉ ids))

/-- The parameters one drain pass is closed over. -/
structure DrainConfig where
  maxAttempts : Nat
  now : Int
  backoff : Nat → Int
  env : DeliveryEnv

/-- Shorthand for `deliver_message` under a drain configuration. -/
def DrainConfig.deliver (cfg : DrainConfig) (p : WebhookPayload) :
    SeqResult × Option WebhookPayload :=
  deliver_message cfg.maxAttempts cfg.now cfg.backoff cfg.env p

/-- How the `for record in query[:100]` body of `drain_mailbox` ended. -/
inductive SliceOutcome
  | halted (e : Exc) (store : List WebhookPayload)
  | done (store : List WebhookPayload)
deriving DecidableEq

/-- Embedding of the inner loop of `drain_mailbox`: process the fetched
slice in order, applying each record's row effect, stopping at the first
raised exception (`DeliveryFailed` is caught by the caller; anything else
propagates). -/
def drain_mailbox_slice (cfg : DrainConfig) :
    List WebhookPayload → List WebhookPayload → SliceOutcome
  | store, [] => .done store
  | store, record :: rest =>
      match cfg.deliver record with
      | (.raised e, row) => .halted e (store_apply_row store record.id row)
      | (_, row) => drain_mailbox_slice cfg (store_apply_row store record.id row) rest

/-- How a sequential drain pass ended, and the store it left behind. -/
inductive DrainResult
  | race
  | deadline (store : List WebhookPayload)
  | retry (store : List WebhookPayload)
  | complete (store : List WebhookPayload)
  | raisedExc (e : Exc) (store : List WebhookPayload)
  | outOfFuel (store : List WebhookPayload)
deriving DecidableEq

/-- Embedding of the `while True` loop of `drain_mailbox`.  `timeUp i`
models `timezone.now() >= deadline` at the top of iteration `i`; a
`DeliveryFailed` from a record ends the pass with the "retry" outcome; an
empty slice means the mailbox is drained. -/
def drain_mailbox_loop (cfg : DrainConfig) (timeUp : Nat → Bool)
    (head : WebhookPayload) :
    Nat → Nat → List WebhookPayload → DrainResult
  | 0, _, store => .outOfFuel store
  | fuel + 1, i, store =>
      if timeUp i then .deadline store
      else
        let slice := (mailbox_query store head).take 100
        match drain_mailbox_slice cfg store slice with
        | .halted .deliveryFailed store' => .retry store'
        | .halted e store' => .raisedExc e store'
        | .done store' =>
            if slice.length < 1 then .complete store'
            else drain_mailbox_loop cfg timeUp head fuel (i + 1) store'

/-- Embedding of `drain_mailbox`: look up the head payload (losing the
race is not an error), then drain in id order from it. -/
def drain_mailbox (cfg : DrainConfig) (timeUp : Nat → Bool) (payload_id : Nat)
    (store : List WebhookPayload) : DrainResult :=
  match store.find? (fun r => decide (r.id = payload_id)) with
  | none => .race
  | some payload =>
      drain_mailbox_loop cfg timeUp payload (store.length + 1) 0 store

/-- A record the sequential drainer handles without an exception: either
discarded for exhausted attempts, or its delivery attempt returns
normally.  Exactly these records have their row deleted. -/
def Handled (cfg : DrainConfig) (r : WebhookPayload) : Prop :=
  (cfg.deliver r).2 = none

/-! Concrete inputs used by witness theorems. -/

/-- A trivial Codecov boundary for witnesses: no skip list, no parseable
owner, a configured client, headers that decode to nothing, and a POST
that always answers 200. -/
def witnessCodecovEnv : CodecovEnv where
  skip_github_owners := []
  ownerLogin := fun _ => none
  configOk := true
  decodeHeaders := fun _ => some []
  cleanProxyHeaders := fun h => h
  postResult := fun _ _ => .ok 200

/-- A delivery environment for witnesses whose region client always
succeeds. -/
def witnessDeliveryEnv : DeliveryEnv where
  codecov := witnessCodecovEnv
  regionResponse := fun _ => .success

/-- A Codecov-destined payload whose stored path is not the GitHub webhook
path. -/
def witnessCodecovPayload : WebhookPayload :=
  { id := 7
    mailbox_name := "github:42"
    destination_type := .codecov
    request_path := "/github/webhook/" }

/-! The attempts counter transition system (for the at-most-N-attempts
property).  A payload row can survive a delivery decision with its row kept
in the store in exactly two ways: the sequential `deliver_message` raised
and had saved the rescheduled row, or the parallel result handler took its
retry branch.  Each step existentially quantifies the wall clock, the
backoff policy and (for the sequential path) the delivery environment,
since these may differ between attempts. -/

/-- A sequential-drainer step that keeps the row: `deliver_message` raised
an exception after saving the rescheduled row. -/
def SeqKeepStep (maxAttempts : Nat) (p p' : WebhookPayload) : Prop :=
  ∃ (now : Int) (backoff : Nat → Int) (env : DeliveryEnv) (e : Exc),
    deliver_message maxAttempts now backoff env p = (.raised e, some p')

/-- A parallel-drainer step that keeps the row:
`_handle_parallel_delivery_result` left the rescheduled row in the store. -/
def ParKeepStep (maxAttempts : Nat) (p p' : WebhookPayload) : Prop :=
  ∃ (now : Int) (backoff : Nat → Int) (e : Exc),
    (_handle_parallel_delivery_result maxAttempts now backoff p (some e)).row =
      some p'

/-- Any row-keeping delivery step, from either drainer. -/
def AttemptStep (maxAttempts : Nat) (p p' : WebhookPayload) : Prop :=
  SeqKeepStep maxAttempts p p' ∨ ParKeepStep maxAttempts p p'

/-- All rows a payload can evolve into over any number of delivery
attempts. -/
def ReachableRow (maxAttempts : Nat) : WebhookPayload → WebhookPayload → Prop :=
  Relation.ReflTransGen (AttemptStep maxAttempts)

/-! The priority scheduler (`schedule_webhook_delivery`). -/

/-- The priority the `Case` annotation assigns to a provider: the matched
entry of `PROVIDER_PRIORITY`, or `DEFAULT_PROVIDER_PRIORITY` for unlisted
or absent providers. -/
def provider_priority_value (provider : Option String) : Nat :=
  match provider with
  | some p =>
      match PROVIDER_PRIORITY.find? (fun kv => decide (kv.1 = p)) with
      | some kv => kv.2
      | none => DEFAULT_PROVIDER_PRIORITY
  | none => DEFAULT_PROVIDER_PRIORITY

/-- The annotated `provider_priority` value.  The source declares the
annotation with `output_field=CharField()`, so the database orders it as a
string: the key is the decimal representation of the priority. -/
def provider_priority (provider : Option String) : String :=
  toString (provider_priority_value provider)

/-- The `order_by("provider_priority", "id")` relation; the varchar
ordering is lexicographic on the characters of the priority string. -/
def schedKeyLE (a b : WebhookPayload) : Prop :=
  (provider_priority a.provider).data < (provider_priority b.provider).data ∨
    ((provider_priority a.provider).data = (provider_priority b.provider).data ∧
      a.id ≤ b.id)

instance : DecidableRel schedKeyLE := fun a b => by
  unfold schedKeyLE
  infer_instance

instance : IsTrans WebhookPayload schedKeyLE := by
  refine ⟨fun a b c hab hbc => ?_⟩
  rcases hab with h1 | ⟨h1, h1'⟩ <;> rcases hbc with h2 | ⟨h2, h2'⟩
  · exact Or.inl (lt_trans h1 h2)
  · exact Or.inl (h2 ▸ h1)
  · exact Or.inl (h1 ▸ h2)
  · exact Or.inr ⟨h1.trans h2, Nat.le_trans h1' h2'⟩

instance : IsTotal WebhookPayload schedKeyLE := by
  refine ⟨fun a b => ?_⟩
  rcases lt_trichotomy (provider_priority a.provider).data
      (provider_priority b.provider).data with h | h | h
  · exact Or.inl (Or.inl h)
  · rcases Nat.le_total a.id b.id with hid | hid
    · exact Or.inl (Or.inr ⟨h, hid⟩)
    · exact Or.inr (Or.inr ⟨h.symm, hid⟩)
  · exact Or.inr (Or.inl h)

/-- The head-of-line membership test: under unique primary keys, a row's
id is in the `Min(id) group by mailbox_name` subquery exactly when it is
the minimum-id row of its own mailbox. -/
def is_head_of_line (store : List WebhookPayload) (p : WebhookPayload) : Bool :=
  store.all (fun q => decide (q.mailbox_name = p.mailbox_name → p.id ≤ q.id))

/-- The scheduler's selection: due head-of-line rows ordered by
(provider-priority string ascending, id ascending). -/
def scheduled_mailboxes (store : List WebhookPayload) (now : Int) :
    List WebhookPayload :=
  (store.filter
    (fun p => decide (p.schedule_for ≤ now) && is_head_of_line store p)).insertionSort
    schedKeyLE

/-- The window of up to `MAX_MAILBOX_DRAIN` rows leased for one dispatched
mailbox. -/
def lease_window (store : List WebhookPayload) (record : WebhookPayload) :
    List WebhookPayload :=
  (mailbox_query store record).take MAX_MAILBOX_DRAIN

/-- Which drainer a mailbox is dispatched to. -/
inductive DrainerTarget
  | parallel
  | sequential
deriving DecidableEq

/-- Embedding of one `schedule_webhook_delivery` tick: the dispatch
decisions in dispatch order, and the store with the leased windows pushed
forward by the batch schedule offset.  All reads within the tick come from
the replica snapshot `store`; the per-record `update` count equals the
window length, and the updates (which touch only `schedule_for` of
disjoint mailboxes) cannot change later windows of the same tick.
`batch_schedule_offset` is modelled from the spec: the source constant is
`timedelta(minutes=BACKOFF_INTERVAL)` whose interval comes from the absent
`webhookpayload` model module. -/
def schedule_webhook_delivery (batch_schedule_offset : Int)
    (store : List WebhookPayload) (now : Int) :
    List (WebhookPayload × DrainerTarget) × List WebhookPayload :=
  let selected := (scheduled_mailboxes store now).take BATCH_SIZE
  let dispatch := selected.map (fun record =>
    (record,
      if MAX_MAILBOX_DRAIN / 5 ≤ (lease_window store record).length then
        DrainerTarget.parallel
      else DrainerTarget.sequential))
  let leased := selected.flatMap (fun record => (lease_window store record).map (·.id))
  (dispatch,
   store.map (fun r =>
     if leased.contains r.id then
       { r with schedule_for := now + batch_schedule_offset }
     else r))

/-! The retention sweeper (`_discard_stale_mailbox_payloads`). -/

/-- Embedding of `_discard_stale_mailbox_payloads`: skip when the head
payload is young enough, otherwise delete the rows matched by the stale
query (capped at 10000 rows in a single delete).  Returns the store after
the delete and the number of rows deleted. -/
def _discard_stale_mailbox_payloads (now : Int) (payload : WebhookPayload)
    (store : List WebhookPayload) : List WebhookPayload × Nat :=
  let max_age := now - MAX_DELIVERY_AGE
  if max_age ≤ payload.date_added then (store, 0)
  else
    let stale_query := (store.filter (fun r =>
      decide (payload.id ≤ r.id ∧ r.mailbox_name = payload.mailbox_name ∧
        r.date_added ≤ now - MAX_DELIVERY_AGE))).take 10000
    let staleIds := stale_query.map (·.id)
    (store.filter (fun r => decide (r.id ∉ staleIds)),
     (store.filter (fun r => decide (r.id ∈ staleIds))).length)

/-- The stripe-provider head of the priority-scheduling witness (note its
id is larger than the default head's, so id order alone would put it
second). -/
def stripeHead : WebhookPayload :=
  { id := 2, mailbox_name := "stripe:1", provider := some "stripe" }

/-- The default-priority head of the priority-scheduling witness. -/
def defaultHead : WebhookPayload := { id := 1, mailbox_name := "plain:1" }

/-- A store of 10001 stale payloads in one mailbox (one more than the
sweeper's single-delete cap). -/
def staleStore : List WebhookPayload :=
  (List.range 10001).map (fun i => { id := i + 1, mailbox_name := "m" })

/-- The head payload of the stale mailbox. -/
def staleHead : WebhookPayload := { id := 1, mailbox_name := "m" }

/-- Payload 20 of the spec's ordered-halt scenario. -/
def haltPayload20 : WebhookPayload := { id := 20, mailbox_name := "m" }

/-- Payload 21 of the spec's ordered-halt scenario (its delivery fails
retryably). -/
def haltPayload21 : WebhookPayload := { id := 21, mailbox_name := "m" }

/-- Payload 22 of the spec's ordered-halt scenario. -/
def haltPayload22 : WebhookPayload := { id := 22, mailbox_name := "m" }

/-- A delivery environment where payload 21's region delivery times out
and every other delivery succeeds. -/
def haltEnv : DeliveryEnv where
  codecov := witnessCodecovEnv
  regionResponse := fun p => if p.id = 21 then .apiTimeoutError else .success

/-- Drain configuration for the ordered-halt scenario. -/
def haltCfg : DrainConfig where
  maxAttempts := 3
  now := 0
  backoff := fun _ => 1
  env := haltEnv

/-! Theorems.  General lemmas about the embedded operations come first;
the claim theorems follow. -/

theorem deliver_handled_cases {cfg : DrainConfig} {r : WebhookPayload}
    (h : Handled cfg r) :
    cfg.deliver r = (.discarded, none) ∨ cfg.deliver r = (.delivered, none) := by
  unfold Handled at h
  unfold DrainConfig.deliver deliver_message at h ⊢
  by_cases hle : cfg.maxAttempts ≤ r.attempts
  · simp [hle]
  · simp only [hle, if_false] at h ⊢
    cases hreq : perform_request cfg.env
        (schedule_next_attempt cfg.now cfg.backoff r) with
    | ok u => simp [hreq]
    | error e => simp [hreq] at h

theorem deliver_raised_eq {cfg : DrainConfig} {r : WebhookPayload} {e : Exc}
    (ha : r.attempts < cfg.maxAttempts)
    (hreq : perform_request cfg.env
      (schedule_next_attempt cfg.now cfg.backoff r) = .error e) :
    cfg.deliver r =
      (.raised e, some (schedule_next_attempt cfg.now cfg.backoff r)) := by
  have hle : ¬ cfg.maxAttempts ≤ r.attempts := by omega
  unfold DrainConfig.deliver deliver_message
  simp [hle, hreq]

theorem store_delete_ids_nil (store : List WebhookPayload) :
    store_delete_ids store [] = store := by
  simp [store_delete_ids]

theorem store_delete_then_delete_ids (store : List WebhookPayload) (i : Nat)
    (ids : List Nat) :
    store_delete_ids (store_delete store i) ids =
      store_delete_ids store (i :: ids) := by
  unfold store_delete_ids store_delete
  rw [List.filter_filter]
  refine List.filter_congr (fun x _ => ?_)
  simp [List.mem_cons, not_or]
  exact Bool.and_comm _ _

theorem store_delete_ids_append (store : List WebhookPayload)
    (a b : List Nat) :
    store_delete_ids (store_delete_ids store a) b =
      store_delete_ids store (a ++ b) := by
  unfold store_delete_ids
  rw [List.filter_filter]
  refine List.filter_congr (fun x _ => ?_)
  simp [List.mem_append, not_or]
  exact Bool.and_comm _ _

theorem IdSorted.filter {store : List WebhookPayload} (h : IdSorted store)
    (p : WebhookPayload → Bool) : IdSorted (store.filter p) :=
  List.Pairwise.filter p h

theorem IdSorted.delete_ids {store : List WebhookPayload} (h : IdSorted store)
    (ids : List Nat) : IdSorted (store_delete_ids store ids) :=
  h.filter _

theorem mailbox_query_eq_filter {store : List WebhookPayload}
    (hsort : IdSorted store) (head : WebhookPayload) :
    mailbox_query store head =
      store.filter
        (fun r => decide (head.id ≤ r.id ∧ r.mailbox_name = head.mailbox_name)) := by
  exact List.Sorted.insertionSort_eq
    ((hsort.filter _).imp (fun h => Nat.le_of_lt h))

theorem mailbox_query_pairwise {store : List WebhookPayload}
    (hsort : IdSorted store) (head : WebhookPayload) :
    (mailbox_query store head).Pairwise (fun a b => a.id < b.id) := by
  rw [mailbox_query_eq_filter hsort]
  exact hsort.filter _

theorem mailbox_query_subset {store : List WebhookPayload}
    (hsort : IdSorted store) (head : WebhookPayload) {r : WebhookPayload}
    (hr : r ∈ mailbox_query store head) : r ∈ store := by
  rw [mailbox_query_eq_filter hsort] at hr
  exact (List.mem_filter.mp hr).1

theorem mailbox_query_delete_ids {store : List WebhookPayload}
    (hsort : IdSorted store) (head : WebhookPayload) (ids : List Nat) :
    mailbox_query (store_delete_ids store ids) head =
      (mailbox_query store head).filter (fun r => decide (r.id ∉ ids)) := by
  rw [mailbox_query_eq_filter (hsort.delete_ids ids),
    mailbox_query_eq_filter hsort]
  unfold store_delete_ids
  rw [List.filter_filter, List.filter_filter]
  refine List.filter_congr (fun x _ => ?_)
  rw [Bool.and_comm]

theorem filter_not_mem_take_ids {T : List WebhookPayload}
    (hT : T.Pairwise (fun a b => a.id < b.id)) (n : Nat) :
    T.filter (fun r => decide (r.id ∉ (T.take n).map (·.id))) = T.drop n := by
  obtain ⟨A, B, hA, hB, hAB⟩ :
      ∃ A B, A = T.take n ∧ B = T.drop n ∧ A ++ B = T :=
    ⟨T.take n, T.drop n, rfl, rfl, List.take_append_drop n T⟩
  rw [← hA, ← hB, ← hAB]
  rw [← hAB] at hT
  obtain ⟨_, _, hcross⟩ := List.pairwise_append.mp hT
  rw [List.filter_append]
  have h1 : A.filter (fun r => decide (r.id ∉ A.map (·.id))) = [] := by
    refine List.filter_eq_nil_iff.mpr (fun a ha => ?_)
    simp only [decide_eq_true_eq, not_not]
    exact List.mem_map.mpr ⟨a, ha, rfl⟩
  have h2 : B.filter (fun r => decide (r.id ∉ A.map (·.id))) = B := by
    refine List.filter_eq_self.mpr (fun b hb => ?_)
    simp only [decide_eq_true_eq]
    intro hcontra
    obtain ⟨x, hx, hxid⟩ := List.mem_map.mp hcontra
    exact absurd (hcross x hx b hb) (by omega)
  rw [h1, h2, List.nil_append]

theorem drain_slice_all_handled (cfg : DrainConfig) :
    ∀ (rs store : List WebhookPayload), (∀ r ∈ rs, Handled cfg r) →
      drain_mailbox_slice cfg store rs =
        .done (store_delete_ids store (rs.map (·.id)))
  | [], store, _ => by
      simp [drain_mailbox_slice, store_delete_ids_nil]
  | r :: rs, store, h => by
      have htail : ∀ x ∈ rs, Handled cfg x :=
        fun x hx => h x (List.mem_cons_of_mem r hx)
      rcases deliver_handled_cases (h r (List.mem_cons_self r rs)) with hd | hd <;>
      · unfold drain_mailbox_slice
        rw [hd]
        show drain_mailbox_slice cfg (store_apply_row store r.id none) rs = _
        rw [drain_slice_all_handled cfg rs _ htail]
        simp [store_apply_row, store_delete_then_delete_ids]

theorem drain_slice_halt (cfg : DrainConfig) {q : WebhookPayload} {e : Exc}
    (hqa : q.attempts < cfg.maxAttempts)
    (hqf : perform_request cfg.env
      (schedule_next_attempt cfg.now cfg.backoff q) = .error e) :
    ∀ (pre : List WebhookPayload) (rest store : List WebhookPayload),
      (∀ r ∈ pre, Handled cfg r) →
      drain_mailbox_slice cfg store (pre ++ q :: rest) =
        .halted e (store_save (store_delete_ids store (pre.map (·.id)))
          (schedule_next_attempt cfg.now cfg.backoff q))
  | [], rest, store, _ => by
      rw [List.nil_append]
      unfold drain_mailbox_slice
      rw [deliver_raised_eq hqa hqf]
      show SliceOutcome.halted e (store_apply_row store q.id
        (some (schedule_next_attempt cfg.now cfg.backoff q))) = _
      simp [store_apply_row, store_delete_ids_nil]
  | r :: pre, rest, store, h => by
      have htail : ∀ x ∈ pre, Handled cfg x :=
        fun x hx => h x (List.mem_cons_of_mem r hx)
      rcases deliver_handled_cases (h r (List.mem_cons_self r pre)) with hd | hd <;>
      · rw [List.cons_append]
        unfold drain_mailbox_slice
        rw [hd]
        show drain_mailbox_slice cfg (store_apply_row store r.id none)
          (pre ++ q :: rest) = _
        rw [drain_slice_halt cfg hqa hqf pre rest _ htail]
        simp [store_apply_row, store_delete_then_delete_ids]

theorem drain_loop_halt (cfg : DrainConfig) (timeUp : Nat → Bool)
    (head : WebhookPayload) (htime : ∀ j, timeUp j = false)
    {q : WebhookPayload} (hqa : q.attempts < cfg.maxAttempts)
    (hqf : perform_request cfg.env
      (schedule_next_attempt cfg.now cfg.backoff q) = .error .deliveryFailed) :
    ∀ (fuel i : Nat) (store pre post : List WebhookPayload),
      IdSorted store →
      mailbox_query store head = pre ++ q :: post →
      (∀ r ∈ pre, Handled cfg r) →
      pre.length < fuel →
      drain_mailbox_loop cfg timeUp head fuel i store =
        .retry (store_save (store_delete_ids store (pre.map (·.id)))
          (schedule_next_attempt cfg.now cfg.backoff q)) := by
  intro fuel
  induction fuel with
  | zero => intro i store pre post _ _ _ hf; omega
  | succ fuel ih =>
    intro i store pre post hsort hquery hpre hf
    unfold drain_mailbox_loop
    rw [if_neg (by rw [htime i]; exact Bool.false_ne_true)]
    by_cases hlen : pre.length < 100
    · have hslice : (mailbox_query store head).take 100 =
          pre ++ q :: post.take (100 - pre.length - 1) := by
        rw [hquery, List.take_append_eq_append_take,
          List.take_of_length_le (Nat.le_of_lt hlen)]
        congr 1
        have h100 : 100 - pre.length = (100 - pre.length - 1) + 1 := by omega
        rw [h100, List.take_succ_cons]
        have h101 : 100 - pre.length - 1 + 1 - 1 = 100 - pre.length - 1 := by
          omega
        rw [h101]
      simp only [hslice]
      rw [drain_slice_halt cfg hqa hqf pre _ store hpre]
    · have hslice : (mailbox_query store head).take 100 = pre.take 100 := by
        rw [hquery, List.take_append_of_le_length (by omega)]
      have hhandled : ∀ r ∈ pre.take 100, Handled cfg r :=
        fun r hr => hpre r (List.mem_of_mem_take hr)
      have hlen100 : (pre.take 100).length = 100 := by
        rw [List.length_take]; omega
      simp only [hslice]
      rw [drain_slice_all_handled cfg _ store hhandled]
      show (if ((pre.take 100)).length < 1 then
          DrainResult.complete
            (store_delete_ids store ((pre.take 100).map (·.id)))
        else drain_mailbox_loop cfg timeUp head fuel (i + 1)
          (store_delete_ids store ((pre.take 100).map (·.id)))) = _
      rw [if_neg (by omega)]
      have hsort₁ : IdSorted
          (store_delete_ids store ((pre.take 100).map (·.id))) :=
        hsort.delete_ids _
      have hquery₁ : mailbox_query
          (store_delete_ids store ((pre.take 100).map (·.id))) head =
          pre.drop 100 ++ q :: post := by
        rw [mailbox_query_delete_ids hsort head _, hquery]
        have hids : (pre.take 100).map (·.id) =
            ((pre ++ q :: post).take 100).map (·.id) := by
          rw [List.take_append_of_le_length (by omega)]
        rw [hids,
          filter_not_mem_take_ids (hquery ▸ mailbox_query_pairwise hsort head) 100,
          List.drop_append_of_le_length (by omega)]
      have hpre₁ : ∀ r ∈ pre.drop 100, Handled cfg r :=
        fun r hr => hpre r (List.mem_of_mem_drop hr)
      have hf₁ : (pre.drop 100).length < fuel := by
        rw [List.length_drop]; omega
      rw [ih (i + 1) _ (pre.drop 100) post hsort₁ hquery₁ hpre₁ hf₁,
        store_delete_ids_append]
      rw [← List.map_append, List.take_append_drop]

theorem find_head {store : List WebhookPayload} {h : WebhookPayload}
    (hsort : IdSorted store) (hmem : h ∈ store) :
    store.find? (fun r => decide (r.id = h.id)) = some h := by
  induction store with
  | nil => cases hmem
  | cons a rest ih =>
      rw [List.find?_cons]
      rcases List.mem_cons.mp hmem with rfl | hmem'
      · simp
      · have ha : a.id < h.id :=
          (List.pairwise_cons.mp hsort).1 h hmem'
        have : (decide (a.id = h.id)) = false := by
          simp; omega
        rw [this]
        exact ih (List.pairwise_cons.mp hsort).2 hmem'

/-- C3: when the sequential drainer hits a payload whose delivery is
classified retryable (`DeliveryFailed`), it stops the mailbox immediately:
the pass ends with the "retry" outcome, every earlier handled payload's
row is gone, the failed payload remains with `attempts` incremented by one
and a `schedule_for` in the future, and every later payload of the mailbox
is left unchanged. -/
theorem sequential_drain_halts_on_retryable (cfg : DrainConfig)
    (timeUp : Nat → Bool) (store : List WebhookPayload)
    (h q : WebhookPayload) (pre post : List WebhookPayload)
    (hsort : IdSorted store)
    (hmem : h ∈ store)
    (hquery : mailbox_query store h = pre ++ q :: post)
    (hpre : ∀ r ∈ pre, Handled cfg r)
    (hqa : q.attempts < cfg.maxAttempts)
    (hqf : perform_request cfg.env
      (schedule_next_attempt cfg.now cfg.backoff q) = .error .deliveryFailed)
    (htime : ∀ j, timeUp j = false)
    (hback : 0 < cfg.backoff q.attempts) :
    drain_mailbox cfg timeUp h.id store =
      .retry (store_save (store_delete_ids store (pre.map (·.id)))
        (schedule_next_attempt cfg.now cfg.backoff q)) ∧
    (schedule_next_attempt cfg.now cfg.backoff q).attempts = q.attempts + 1 ∧
    cfg.now < (schedule_next_attempt cfg.now cfg.backoff q).schedule_for ∧
    (∀ r ∈ pre, ∀ x ∈ store_save (store_delete_ids store (pre.map (·.id)))
        (schedule_next_attempt cfg.now cfg.backoff q), x.id ≠ r.id) ∧
    (∀ r ∈ post, r ∈ store_save (store_delete_ids store (pre.map (·.id)))
        (schedule_next_attempt cfg.now cfg.backoff q)) := by
  have hTpair : (pre ++ q :: post).Pairwise (fun a b => a.id < b.id) :=
    hquery ▸ mailbox_query_pairwise hsort h
  obtain ⟨hpairPre, hpairQPost, hcross⟩ := List.pairwise_append.mp hTpair
  have hbumpid : (schedule_next_attempt cfg.now cfg.backoff q).id = q.id := rfl
  refine ⟨?_, rfl, ?_, ?_, ?_⟩
  · unfold drain_mailbox
    rw [find_head hsort hmem]
    refine drain_loop_halt cfg timeUp h htime hqa hqf _ 0 store pre post
      hsort hquery hpre ?_
    have hlen : (pre ++ q :: post).length = (mailbox_query store h).length := by
      rw [hquery]
    have hle : (mailbox_query store h).length ≤ store.length := by
      unfold mailbox_query
      rw [List.length_insertionSort]
      exact List.length_filter_le _ _
    rw [List.length_append] at hlen
    omega
  · simp only [schedule_next_attempt]
    omega
  · intro r hr x hx
    obtain ⟨y, hy, hfy⟩ := List.mem_map.mp hx
    have hrq : r.id < q.id := hcross r hr q (List.mem_cons_self q post)
    by_cases hyid : y.id = (schedule_next_attempt cfg.now cfg.backoff q).id
    · rw [if_pos hyid] at hfy
      rw [← hfy, hbumpid]
      omega
    · rw [if_neg hyid] at hfy
      subst hfy
      have := (List.mem_filter.mp hy).2
      simp only [decide_eq_true_eq] at this
      intro hcontra
      exact this (hcontra ▸ List.mem_map.mpr ⟨r, hr, rfl⟩)
  · intro r hr
    have hrT : r ∈ mailbox_query store h := by
      rw [hquery]
      exact List.mem_append_right pre (List.mem_cons_of_mem q hr)
    have hrStore : r ∈ store := mailbox_query_subset hsort h hrT
    have hqr : q.id < r.id := (List.pairwise_cons.mp hpairQPost).1 r hr
    have hrNotPre : r.id ∉ pre.map (·.id) := by
      intro hcontra
      obtain ⟨a, ha, haid⟩ := List.mem_map.mp hcontra
      have := hcross a ha r (List.mem_cons_of_mem q hr)
      omega
    have hrDel : r ∈ store_delete_ids store (pre.map (·.id)) :=
      List.mem_filter.mpr ⟨hrStore, by simpa using hrNotPre⟩
    refine List.mem_map.mpr ⟨r, hrDel, ?_⟩
    rw [if_neg (by rw [hbumpid]; omega)]

/-- C3 witness: in the mailbox (20, 21, 22) where delivery of 21 fails
retryably, the pass returns "retry", payload 20 is deleted, 21 keeps one
more attempt and a future schedule, and 22 is untouched. -/
theorem sequential_drain_halts_on_retryable_witness :
    drain_mailbox haltCfg (fun _ => false) haltPayload20.id
      [haltPayload20, haltPayload21, haltPayload22] =
      .retry (store_save (store_delete_ids
          [haltPayload20, haltPayload21, haltPayload22]
          ([haltPayload20].map (·.id)))
        (schedule_next_attempt haltCfg.now haltCfg.backoff haltPayload21)) ∧
    (schedule_next_attempt haltCfg.now haltCfg.backoff haltPayload21).attempts =
      haltPayload21.attempts + 1 ∧
    haltCfg.now <
      (schedule_next_attempt haltCfg.now haltCfg.backoff
        haltPayload21).schedule_for ∧
    (∀ r ∈ [haltPayload20],
      ∀ x ∈ store_save (store_delete_ids
          [haltPayload20, haltPayload21, haltPayload22]
          ([haltPayload20].map (·.id)))
        (schedule_next_attempt haltCfg.now haltCfg.backoff haltPayload21),
        x.id ≠ r.id) ∧
    (∀ r ∈ [haltPayload22],
      r ∈ store_save (store_delete_ids
          [haltPayload20, haltPayload21, haltPayload22]
          ([haltPayload20].map (·.id)))
        (schedule_next_attempt haltCfg.now haltCfg.backoff haltPayload21)) :=
  sequential_drain_halts_on_retryable haltCfg (fun _ => false)
    [haltPayload20, haltPayload21, haltPayload22] haltPayload20 haltPayload21
    [haltPayload20] [haltPayload22]
    (by unfold IdSorted; decide) (by decide) (by decide)
    (by simp only [Handled]; decide) (by decide) rfl
    (fun _ => rfl) (by decide)

theorem seq_keep_step_bound {m : Nat} {p p' : WebhookPayload}
    (h : SeqKeepStep m p p') : p.attempts < m ∧ p'.attempts = p.attempts + 1 := by
  obtain ⟨now, backoff, env, e, h⟩ := h
  unfold deliver_message at h
  by_cases hle : m ≤ p.attempts
  · simp [hle] at h
  · simp only [hle, if_false] at h
    cases hreq : perform_request env (schedule_next_attempt now backoff p) with
    | ok u => simp [hreq] at h
    | error e' =>
        simp [hreq] at h
        obtain ⟨-, hp⟩ := h
        refine ⟨by omega, ?_⟩
        rw [← hp]
        rfl

theorem par_keep_step_bound {m : Nat} {p p' : WebhookPayload}
    (h : ParKeepStep m p p') : p.attempts < m ∧ p'.attempts = p.attempts + 1 := by
  obtain ⟨now, backoff, e, h⟩ := h
  unfold _handle_parallel_delivery_result at h
  by_cases hle : m ≤ p.attempts
  · simp [hle] at h
  · simp only [hle, if_false] at h
    simp at h
    refine ⟨by omega, ?_⟩
    rw [← h]
    rfl

/-- C2: the `attempts` field of any row a payload can evolve into, under
any interleaving of sequential and parallel delivery attempts, never
exceeds `MAX_ATTEMPTS`: both row-keeping steps increment only below the
limit, so the count recorded when a payload is discarded is at most
`MAX_ATTEMPTS`. -/
theorem attempts_recorded_never_exceed (maxAttempts : Nat)
    (p0 p : WebhookPayload) (h0 : p0.attempts = 0)
    (hreach : ReachableRow maxAttempts p0 p) :
    p.attempts ≤ maxAttempts := by
  induction hreach with
  | refl => omega
  | tail hab hstep ih =>
      rcases hstep with hs | hp
      · have := seq_keep_step_bound hs
        omega
      · have := par_keep_step_bound hp
        omega

/-- C2 witness: a payload at 0 attempts that fails retryably once, under
limit 3, has its recorded attempts bounded by 3. -/
theorem attempts_recorded_never_exceed_witness :
    (schedule_next_attempt 0 (fun _ => 1) haltPayload21).attempts ≤ 3 :=
  attempts_recorded_never_exceed 3 haltPayload21 _ rfl
    (Relation.ReflTransGen.single
      (Or.inl ⟨0, fun _ => 1, haltEnv, .deliveryFailed, rfl⟩))

/-- C4: `perform_region_request` raises `DeliveryFailed` exactly on host
errors, timeouts, connection resets, 5xx responses and otherwise
unclassified remote API errors, and returns normally on conflict and on
400/401/403/404 responses. -/
theorem region_request_retryable_classification (o : RegionResponse) :
    (perform_region_request o = .error .deliveryFailed ↔
      ((∃ b, o = .apiHostError b) ∨
        o = .apiTimeoutError ∨
        o = .apiConnectionResetError ∨
        (∃ c, o = .apiError (some c) ∧ 500 ≤ c ∧ c < 600) ∨
        (o = .apiError none) ∨
        (∃ c, o = .apiError (some c) ∧ ¬(500 ≤ c ∧ c < 600) ∧
          ¬(c = 400 ∨ c = 401 ∨ c = 403 ∨ c = 404)))) ∧
    (perform_region_request .apiConflictError = .ok ()) ∧
    (∀ c : Int, (c = 400 ∨ c = 401 ∨ c = 403 ∨ c = 404) →
      perform_region_request (.apiError (some c)) = .ok ()) := by
  refine ⟨?_, rfl, ?_⟩
  · cases o with
    | success => simp [perform_region_request]
    | apiHostError b =>
        cases b <;> simp [perform_region_request]
    | apiConflictError => simp [perform_region_request]
    | apiTimeoutError => simp [perform_region_request]
    | apiConnectionResetError => simp [perform_region_request]
    | apiError s =>
        cases s with
        | none => simp [perform_region_request]
        | some c =>
            simp only [perform_region_request]
            split_ifs with h5 h4 <;> simp <;> omega
    | otherRaised code => simp [perform_region_request]
  · intro c hc
    have h5 : ¬(500 ≤ c ∧ c < 600) := by omega
    simp [perform_region_request, h5, hc]

theorem provider_priority_stripe {s : WebhookPayload}
    (hs : s.provider = some "stripe") : provider_priority s.provider = "1" := by
  rw [hs]
  rfl

theorem provider_priority_default {d : WebhookPayload}
    (hd : d.provider = none ∨
      ∀ kv ∈ PROVIDER_PRIORITY, ¬ d.provider = some kv.1) :
    provider_priority d.provider = "10" := by
  rcases hd with hnone | hlist
  · rw [hnone]
    rfl
  · cases hdp : d.provider with
    | none => rfl
    | some pr =>
        have hne : ¬ ("stripe" : String) = pr := by
          intro hcontra
          exact hlist ("stripe", 1) (by simp [PROVIDER_PRIORITY])
            (by rw [hdp, ← hcontra])
        unfold provider_priority provider_priority_value
        have hdec : (decide ((("stripe", 1) : String × Nat).1 = pr)) = false :=
          decide_eq_false hne
        simp [PROVIDER_PRIORITY, List.find?, hdec]
        decide

/-- C5: on a scheduling tick, a due head-of-line payload with provider
"stripe" (priority key "1") is selected and dispatched strictly before
every dispatched mailbox whose head has no provider or an unlisted one
(priority key "10"), regardless of id order; and within one priority
tier the dispatch order is by ascending head-payload id. -/
theorem scheduler_prioritizes_stripe (off : Int) (store : List WebhookPayload)
    (now : Int) (s d : WebhookPayload)
    (hs_mem : s ∈ store) (hs_head : is_head_of_line store s = true)
    (hs_due : s.schedule_for ≤ now)
    (hs_provider : s.provider = some "stripe")
    (hd_provider : d.provider = none ∨
      ∀ kv ∈ PROVIDER_PRIORITY, ¬ d.provider = some kv.1)
    (hd_dispatched : ∃ t, (d, t) ∈ (schedule_webhook_delivery off store now).1) :
    (∃ i j : Nat, i < j ∧
      (schedule_webhook_delivery off store now).1[i]?.map Prod.fst = some s ∧
      (schedule_webhook_delivery off store now).1[j]?.map Prod.fst = some d) ∧
    (∀ (i j : Nat) (a b : WebhookPayload × DrainerTarget), i < j →
      (schedule_webhook_delivery off store now).1[i]? = some a →
      (schedule_webhook_delivery off store now).1[j]? = some b →
      provider_priority a.1.provider = provider_priority b.1.provider →
      a.1.id ≤ b.1.id) := by
  have hkey_s := provider_priority_stripe hs_provider
  have hkey_d := provider_priority_default hd_provider
  have hnotle : ¬ schedKeyLE d s := by
    unfold schedKeyLE
    rw [hkey_s, hkey_d]
    rintro (h | ⟨h, -⟩)
    · exact absurd h (by decide)
    · exact absurd h (by decide)
  have hsd : s ≠ d := by
    intro he
    have : ("1" : String) = "10" := by rw [← hkey_s, he, hkey_d]
    exact absurd this (by decide)
  have hsorted : (scheduled_mailboxes store now).Pairwise schedKeyLE :=
    List.sorted_insertionSort schedKeyLE _
  obtain ⟨t, htmem⟩ := hd_dispatched
  have hd_take : d ∈ (scheduled_mailboxes store now).take BATCH_SIZE := by
    unfold schedule_webhook_delivery at htmem
    simp only [List.mem_map] at htmem
    obtain ⟨r', hr', heq⟩ := htmem
    injection heq with h1 _
    exact h1 ▸ hr'
  obtain ⟨j, hj⟩ := List.mem_iff_getElem?.mp hd_take
  have hjB : j < BATCH_SIZE ∧ (scheduled_mailboxes store now)[j]? = some d := by
    rw [List.getElem?_take] at hj
    by_cases hjB' : j < BATCH_SIZE
    · rw [if_pos hjB'] at hj
      exact ⟨hjB', hj⟩
    · rw [if_neg hjB'] at hj
      cases hj
  have hs_memL : s ∈ scheduled_mailboxes store now := by
    unfold scheduled_mailboxes
    rw [List.mem_insertionSort]
    refine List.mem_filter.mpr ⟨hs_mem, ?_⟩
    rw [hs_head]
    simp [hs_due]
  obtain ⟨i, hi⟩ := List.mem_iff_getElem?.mp hs_memL
  obtain ⟨hilen, higet⟩ := List.getElem?_eq_some.mp hi
  obtain ⟨hjlen, hjget⟩ := List.getElem?_eq_some.mp hjB.2
  have hij : i < j := by
    rcases Nat.lt_trichotomy i j with h | h | h
    · exact h
    · exact absurd (higet.symm.trans (h ▸ hjget)) hsd
    · exact absurd (hjget ▸ higet ▸
        List.pairwise_iff_getElem.mp hsorted j i hjlen hilen h) hnotle
  have hD : (schedule_webhook_delivery off store now).1 =
      ((scheduled_mailboxes store now).take BATCH_SIZE).map
        (fun record => (record,
          if MAX_MAILBOX_DRAIN / 5 ≤ (lease_window store record).length then
            DrainerTarget.parallel
          else DrainerTarget.sequential)) := rfl
  refine ⟨⟨i, j, hij, ?_, ?_⟩, ?_⟩
  · rw [hD, List.getElem?_map, List.getElem?_take,
      if_pos (Nat.lt_trans hij hjB.1), hi]
    rfl
  · rw [hD, List.getElem?_map, List.getElem?_take, if_pos hjB.1, hjB.2]
    rfl
  · intro i' j' a b hij' ha hb hkeyab
    rw [hD, List.getElem?_map] at ha hb
    obtain ⟨ra, hra, hfa⟩ := Option.map_eq_some'.mp ha
    obtain ⟨rb, hrb, hfb⟩ := Option.map_eq_some'.mp hb
    have ha1 : a.1 = ra := by rw [← hfa]
    have hb1 : b.1 = rb := by rw [← hfb]
    have hpairTake :
        ((scheduled_mailboxes store now).take BATCH_SIZE).Pairwise schedKeyLE :=
      List.Pairwise.sublist (List.take_sublist BATCH_SIZE _) hsorted
    obtain ⟨hralen, hraget⟩ := List.getElem?_eq_some.mp hra
    obtain ⟨hrblen, hrbget⟩ := List.getElem?_eq_some.mp hrb
    have hkle : schedKeyLE ra rb := hraget ▸ hrbget ▸
      List.pairwise_iff_getElem.mp hpairTake i' j' hralen hrblen hij'
    rcases hkle with hlt | ⟨-, hle⟩
    · rw [ha1, hb1] at hkeyab
      rw [hkeyab] at hlt
      exact absurd hlt (lt_irrefl _)
    · rw [ha1, hb1]
      exact hle

/-- C5 witness: with a stripe head (id 2) and a provider-less head (id 1)
both due, the stripe mailbox is dispatched first despite its larger id,
and the dispatch order is by ascending id within equal priority keys. -/
theorem scheduler_prioritizes_stripe_witness :
    (∃ i j : Nat, i < j ∧
      (schedule_webhook_delivery 0 [stripeHead, defaultHead] 0).1[i]?.map
        Prod.fst = some stripeHead ∧
      (schedule_webhook_delivery 0 [stripeHead, defaultHead] 0).1[j]?.map
        Prod.fst = some defaultHead) ∧
    (∀ (i j : Nat) (a b : WebhookPayload × DrainerTarget), i < j →
      (schedule_webhook_delivery 0 [stripeHead, defaultHead] 0).1[i]? = some a →
      (schedule_webhook_delivery 0 [stripeHead, defaultHead] 0).1[j]? = some b →
      provider_priority a.1.provider = provider_priority b.1.provider →
      a.1.id ≤ b.1.id) :=
  scheduler_prioritizes_stripe 0 [stripeHead, defaultHead] 0 stripeHead
    defaultHead (by decide) (by decide) (by decide) rfl (Or.inl rfl)
    ⟨.sequential, by decide⟩

/-- C6: a mailbox selected by the scheduler is dispatched to the parallel
drainer exactly when its leased window holds at least one fifth of the
maximum drain window (`MAX_MAILBOX_DRAIN / 5 = 60` rows), and to the
sequential drainer otherwise. -/
theorem backlog_routes_to_parallel (off : Int) (store : List WebhookPayload)
    (now : Int) (rec : WebhookPayload) (t : DrainerTarget)
    (hmem : (rec, t) ∈ (schedule_webhook_delivery off store now).1) :
    (t = .parallel ↔
      MAX_MAILBOX_DRAIN / 5 ≤ (lease_window store rec).length) ∧
    (t = .sequential ↔
      (lease_window store rec).length < MAX_MAILBOX_DRAIN / 5) := by
  unfold schedule_webhook_delivery at hmem
  simp only [List.mem_map] at hmem
  obtain ⟨r', _, heq⟩ := hmem
  injection heq with hrec ht
  subst hrec
  by_cases hc : MAX_MAILBOX_DRAIN / 5 ≤ (lease_window store r').length
  · rw [if_pos hc] at ht
    subst ht
    constructor
    · simp [hc]
    · simp
      omega
  · rw [if_neg hc] at ht
    subst ht
    constructor
    · simp
      omega
    · simp
      omega

/-- C6 witness: a one-payload mailbox (window of 1 < 60) is dispatched to
the sequential drainer. -/
theorem backlog_routes_to_parallel_witness :
    (DrainerTarget.sequential = .parallel ↔
      MAX_MAILBOX_DRAIN / 5 ≤ (lease_window [defaultHead] defaultHead).length) ∧
    (DrainerTarget.sequential = .sequential ↔
      (lease_window [defaultHead] defaultHead).length < MAX_MAILBOX_DRAIN / 5) :=
  backlog_routes_to_parallel 0 [defaultHead] 0 defaultHead .sequential
    (by decide)

/-- C7 amended: running the retention sweeper twice in a row (same
instant, same head, no new payloads) deletes 0 rows the second time,
provided the stale query matches at most 10000 rows — the cap of the
single capped delete one run performs. -/
theorem retention_sweeper_second_run_deletes_zero (now : Int)
    (payload : WebhookPayload) (store : List WebhookPayload)
    (hcap : (store.filter (fun r =>
      decide (payload.id ≤ r.id ∧ r.mailbox_name = payload.mailbox_name ∧
        r.date_added ≤ now - MAX_DELIVERY_AGE))).length ≤ 10000) :
    (_discard_stale_mailbox_payloads now payload
      (_discard_stale_mailbox_payloads now payload store).1).2 = 0 := by
  by_cases hguard : now - MAX_DELIVERY_AGE ≤ payload.date_added
  · simp [_discard_stale_mailbox_payloads, hguard]
  · have h1 : (_discard_stale_mailbox_payloads now payload store).1 =
        store.filter (fun r => decide (r.id ∉
          (store.filter (fun x =>
            decide (payload.id ≤ x.id ∧ x.mailbox_name = payload.mailbox_name ∧
              x.date_added ≤ now - MAX_DELIVERY_AGE))).map (·.id))) := by
      unfold _discard_stale_mailbox_payloads
      rw [if_neg hguard]
      simp only [List.take_of_length_le hcap]
    have h2 : ∀ r ∈ (_discard_stale_mailbox_payloads now payload store).1,
        (decide (payload.id ≤ r.id ∧ r.mailbox_name = payload.mailbox_name ∧
          r.date_added ≤ now - MAX_DELIVERY_AGE)) = false := by
      intro r hr
      rw [h1] at hr
      obtain ⟨hrs, hdec⟩ := List.mem_filter.mp hr
      simp only [decide_eq_true_eq] at hdec
      by_contra hc
      have hct : (decide (payload.id ≤ r.id ∧
          r.mailbox_name = payload.mailbox_name ∧
          r.date_added ≤ now - MAX_DELIVERY_AGE)) = true := by
        cases hcr : (decide (payload.id ≤ r.id ∧
            r.mailbox_name = payload.mailbox_name ∧
            r.date_added ≤ now - MAX_DELIVERY_AGE))
        · exact absurd hcr hc
        · rfl
      exact hdec (List.mem_map.mpr ⟨r, List.mem_filter.mpr ⟨hrs, hct⟩, rfl⟩)
    have h3 : ((_discard_stale_mailbox_payloads now payload store).1).filter
        (fun r => decide (payload.id ≤ r.id ∧
          r.mailbox_name = payload.mailbox_name ∧
          r.date_added ≤ now - MAX_DELIVERY_AGE)) = [] :=
      List.filter_eq_nil_iff.mpr (fun a ha => by
        rw [h2 a ha]; exact Bool.false_ne_true)
    generalize hS1 : (_discard_stale_mailbox_payloads now payload store).1 = S1
      at h3
    unfold _discard_stale_mailbox_payloads
    rw [if_neg hguard]
    simp only [h3]
    simp

/-- C7 amended witness: a one-row stale mailbox swept twice deletes the
row on the first run and 0 rows on the second. -/
theorem retention_sweeper_second_run_deletes_zero_witness :
    (_discard_stale_mailbox_payloads 10 staleHead
      (_discard_stale_mailbox_payloads 10 staleHead
        [{ id := 1, mailbox_name := "m" }]).1).2 = 0 :=
  retention_sweeper_second_run_deletes_zero 10 staleHead
    [{ id := 1, mailbox_name := "m" }] (by decide)

theorem staleStore_pairwise : staleStore.Pairwise (fun a b => a.id < b.id) := by
  unfold staleStore
  refine List.Pairwise.map _ (fun a b h => ?_) (List.pairwise_lt_range 10001)
  exact Nat.succ_lt_succ h

theorem staleStore_first_run :
    (_discard_stale_mailbox_payloads 10 staleHead staleStore).1 =
      [{ id := 10001, mailbox_name := "m" }] := by
  unfold _discard_stale_mailbox_payloads
  rw [if_neg (by decide)]
  have hall : staleStore.filter (fun r =>
      decide (staleHead.id ≤ r.id ∧ r.mailbox_name = staleHead.mailbox_name ∧
        r.date_added ≤ 10 - MAX_DELIVERY_AGE)) = staleStore := by
    refine List.filter_eq_self.mpr (fun r hr => ?_)
    obtain ⟨i, hi, rfl⟩ := List.mem_map.mp hr
    simp [staleHead, MAX_DELIVERY_AGE]
  simp only [hall]
  rw [filter_not_mem_take_ids staleStore_pairwise 10000]
  unfold staleStore
  rw [← List.map_drop]
  have hdrop : (List.range 10001).drop 10000 = [10000] := by
    rw [List.range_succ,
      List.drop_append_of_le_length (by rw [List.length_range])]
    have h0 : (List.range 10000).drop 10000 = [] := by
      have := List.drop_length (List.range 10000)
      rwa [List.length_range] at this
    rw [h0, List.nil_append]
  rw [hdrop]
  rfl

/-- C7 counterexample: with 10001 stale rows in the mailbox, the first
sweep deletes only the 10000-row cap, so the second sweep still deletes a
row — the claimed second-run count of 0 is false at this input. -/
theorem retention_sweeper_claim_counterexample :
    (_discard_stale_mailbox_payloads 10 staleHead
      (_discard_stale_mailbox_payloads 10 staleHead staleStore).1).2 ≠ 0 := by
  rw [staleStore_first_run]
  decide

/-- C9: `deliver_message_parallel` is total with respect to exceptions:
for every payload it returns the `(payload, error)` pair, the error
component being exactly the exception `perform_request` raised, `none` when
it returned normally. -/
theorem deliver_message_parallel_total (env : DeliveryEnv)
    (payload : WebhookPayload) :
    (deliver_message_parallel env payload = (payload, none) ∧
      perform_request env payload = .ok ()) ∨
    (∃ e, deliver_message_parallel env payload = (payload, some e) ∧
      perform_request env payload = .error e) := by
  cases h : perform_request env payload with
  | ok u => exact Or.inl ⟨by simp [deliver_message_parallel, h], by simp [h]⟩
  | error e => exact Or.inr ⟨e, by simp [deliver_message_parallel, h], rfl⟩

/-- C1 counterexample: with `MAX_ATTEMPTS = 2`, a payload whose `attempts`
field equals `MAX_ATTEMPTS - 1 = 1` at batch time that fails with the
retryable `DeliveryFailed` classification is not deleted and is counted
under "retry": the claimed delete-and-count-attempts_exceed behaviour is
false at this input. -/
theorem parallel_exhaustion_claim_counterexample :
    ¬((_handle_parallel_delivery_result 2 0 (fun _ => 1)
        { id := 1, mailbox_name := "m", attempts := 2 - 1 }
        (some .deliveryFailed)).row = none ∧
      (_handle_parallel_delivery_result 2 0 (fun _ => 1)
        { id := 1, mailbox_name := "m", attempts := 2 - 1 }
        (some .deliveryFailed)).outcome = .attempts_exceed) := by
  decide

/-- C1 amended: a payload delivered via the Parallel Drainer whose
`attempts` field is at least `MAX_ATTEMPTS` at batch time and whose
delivery fails with the retryable `DeliveryFailed` classification is
deleted (not rescheduled) and counted under "attempts_exceed", not
"retry"; one whose `attempts` field equals `MAX_ATTEMPTS - 1` is instead
rescheduled and counted under "retry". -/
theorem parallel_exhaustion_discard (maxAttempts : Nat) (now : Int)
    (backoff : Nat → Int) (p q : WebhookPayload)
    (hp : maxAttempts ≤ p.attempts)
    (hq : q.attempts + 1 = maxAttempts) :
    ((_handle_parallel_delivery_result maxAttempts now backoff p
        (some .deliveryFailed)).row = none ∧
      (_handle_parallel_delivery_result maxAttempts now backoff p
        (some .deliveryFailed)).outcome = .attempts_exceed) ∧
    ((_handle_parallel_delivery_result maxAttempts now backoff q
        (some .deliveryFailed)).row =
        some (schedule_next_attempt now backoff q) ∧
      (_handle_parallel_delivery_result maxAttempts now backoff q
        (some .deliveryFailed)).outcome = .retry) := by
  have hq' : ¬ maxAttempts ≤ q.attempts := by omega
  refine ⟨⟨?_, ?_⟩, ?_, ?_⟩ <;>
    simp [_handle_parallel_delivery_result, hp, hq']

/-- C1 amended witness: concrete instance with `MAX_ATTEMPTS = 2`, one
payload at 2 attempts and one at 1 attempt. -/
theorem parallel_exhaustion_discard_witness :
    ((_handle_parallel_delivery_result 2 0 (fun _ => 1)
        { id := 1, mailbox_name := "m", attempts := 2 }
        (some .deliveryFailed)).row = none ∧
      (_handle_parallel_delivery_result 2 0 (fun _ => 1)
        { id := 1, mailbox_name := "m", attempts := 2 }
        (some .deliveryFailed)).outcome = .attempts_exceed) ∧
    ((_handle_parallel_delivery_result 2 0 (fun _ => 1)
        { id := 2, mailbox_name := "m", attempts := 1 }
        (some .deliveryFailed)).row =
        some (schedule_next_attempt 0 (fun _ => 1)
          { id := 2, mailbox_name := "m", attempts := 1 }) ∧
      (_handle_parallel_delivery_result 2 0 (fun _ => 1)
        { id := 2, mailbox_name := "m", attempts := 1 }
        (some .deliveryFailed)).outcome = .retry) :=
  parallel_exhaustion_discard 2 0 (fun _ => 1)
    { id := 1, mailbox_name := "m", attempts := 2 }
    { id := 2, mailbox_name := "m", attempts := 1 }
    (by decide) (by decide)

/-- C8: for Codecov-destined payloads `perform_request` never raises:
every failure of `perform_codecov_request` is a normal return, so
`deliver_message` treats the payload as handled and deletes its row. -/
theorem codecov_delivery_never_retries (env : DeliveryEnv) (maxAttempts : Nat)
    (now : Int) (backoff : Nat → Int) (payload : WebhookPayload)
    (hdest : payload.destination_type = .codecov)
    (hatt : payload.attempts < maxAttempts) :
    perform_request env payload = .ok () ∧
    deliver_message maxAttempts now backoff env payload = (.delivered, none) := by
  have hreq : ∀ q : WebhookPayload, q.destination_type = .codecov →
      perform_request env q = .ok () := by
    intro q hq
    simp [perform_request, hq]
  have hbump : (schedule_next_attempt now backoff payload).destination_type =
      .codecov := hdest
  refine ⟨hreq payload hdest, ?_⟩
  have hle : ¬ maxAttempts ≤ payload.attempts := by omega
  simp [deliver_message, hle, hreq _ hbump]

/-- C10: a Codecov-destined payload whose stored request path, stripped of
leading and trailing slashes, is not the GitHub webhook path takes the
`unexpected_path` exit before any outbound request, and the caller deletes
it. -/
theorem codecov_unexpected_path_not_forwarded (env : DeliveryEnv)
    (maxAttempts : Nat) (now : Int) (backoff : Nat → Int)
    (payload : WebhookPayload)
    (hdest : payload.destination_type = .codecov)
    (hpath : pyStrip '/' payload.request_path ≠ "extensions/github/webhook")
    (hatt : payload.attempts < maxAttempts) :
    perform_codecov_request env.codecov payload = .unexpected_path ∧
    (perform_codecov_request env.codecov payload).madeOutboundRequest = false ∧
    deliver_message maxAttempts now backoff env payload = (.delivered, none) := by
  have hres : perform_codecov_request env.codecov payload = .unexpected_path := by
    simp [perform_codecov_request, hpath]
  refine ⟨hres, by simp [hres, CodecovResult.madeOutboundRequest], ?_⟩
  have hbump : (schedule_next_attempt now backoff payload).destination_type =
      .codecov := hdest
  have hle : ¬ maxAttempts ≤ payload.attempts := by omega
  simp [deliver_message, hle, perform_request, hbump]

/-- C10 witness: the concrete Codecov payload with path "/github/webhook/"
is not forwarded and is deleted. -/
theorem codecov_unexpected_path_not_forwarded_witness :
    perform_codecov_request witnessDeliveryEnv.codecov witnessCodecovPayload =
      .unexpected_path ∧
    (perform_codecov_request witnessDeliveryEnv.codecov
      witnessCodecovPayload).madeOutboundRequest = false ∧
    deliver_message 3 0 (fun _ => 1) witnessDeliveryEnv witnessCodecovPayload =
      (.delivered, none) :=
  codecov_unexpected_path_not_forwarded witnessDeliveryEnv 3 0 (fun _ => 1)
    witnessCodecovPayload rfl (by decide) (by decide)

/-- C8 witness: a concrete Codecov payload with 0 attempts and limit 3 is
delivered and deleted. -/
theorem codecov_delivery_never_retries_witness :
    perform_request witnessDeliveryEnv witnessCodecovPayload = .ok () ∧
    deliver_message 3 0 (fun _ => 1) witnessDeliveryEnv witnessCodecovPayload =
      (.delivered, none) :=
  codecov_delivery_never_retries witnessDeliveryEnv 3 0 (fun _ => 1)
    witnessCodecovPayload rfl (by decide)

end DeliverWebhooks
